import Mathlib

/-!
Verification development for the Code City isometric visualizer.

The visualizer (canvas-visualizer.js) lays packages and class "buildings"
out in a 2D world plane, projects them isometrically onto a canvas, and
colors buildings from git metadata (git-metadata-color-manager, the
`GitMetadataColorManager` class).

Shallow embedding conventions:
* JavaScript numbers that stay rational (lines of code, commit counts,
  timestamps, HSL components) are modelled as `ℚ` or `ℕ`; geometry that
  goes through `Math.sqrt` / `Math.cos` is modelled over `ℝ`.
* JavaScript's stable `Array.prototype.sort` with comparator
  `(a, b) => key b - key a` is modelled as `List.insertionSort` with the
  strict relation `key b < key a` (insertion sort is stable and orders
  descending by key, ties keeping input order, exactly as the comparator).
* Global mutable state (`CONFIG`, `buildings`, `packages`, ...) is an
  explicit `AppState` record threaded through the operations.
* For the NaN-propagation analysis, a JavaScript number that may be `NaN`
  (or an absent field, `undefined`, which any arithmetic turns into `NaN`)
  is modelled as `Option ℚ` with `none` for NaN/undefined.
-/

namespace CodeCity

/-! ## Configuration constants (the immutable part of `CONFIG`) -/

def buildingWidth : ℝ := 30

def buildingDepth : ℝ := 30

def buildingSpacing : ℝ := 5

def packagePadding : ℝ := 20

def packageSpacing : ℝ := 0

def locToHeightScale : ℝ := 0.8

def minBuildingHeight : ℝ := 10

def minBuildingWidth : ℝ := 20

def maxBuildingWidth : ℝ := 80

def minBuildingDepth : ℝ := 20

def maxBuildingDepth : ℝ := 80

noncomputable def isoAngle : ℝ := Real.pi / 6

def estimatedPackageSize : ℝ := 150

def buildingBaseColor : String := "#34495e"

def buildingHighlightColor : String := "#3498db"

def buildingSelectedColor : String := "#e74c3c"

/-! ## Data model (input JSON schema) -/

/-- Git metadata attached to a class; each field may be absent. Dates are
modelled as their `getTime()` value in milliseconds. -/
structure GitMetadata where
  commits : Option ℕ
  authors : Option ℕ
  lastModified : Option ℚ
  deriving DecidableEq, Repr

structure ClassRec where
  name : String
  linesOfCode : ℚ
  gitMetadata : Option GitMetadata
  deriving DecidableEq, Repr

structure PackageRec where
  name : String
  classes : List ClassRec
  deriving DecidableEq, Repr

structure DataSet where
  packages : List PackageRec
  deriving DecidableEq, Repr

/-! ## GitMetadataColorManager (git-metadata-color-manager source file) -/

/-- JavaScript `a || b` on numbers when `a` is known non-NaN: `0` is the
only falsy value. -/
def jsOr (a b : ℚ) : ℚ := if a = 0 then b else a

structure GitMetadataColorManager where
  maxCommits : ℚ
  maxAuthors : ℚ
  oldestDate : ℚ
  newestDate : ℚ
  dateRange : ℚ
  deriving DecidableEq, Repr

/-- The `GitMetadataColorManager` constructor: `maxCommits || 1`,
`maxAuthors || 1`, dates defaulting to `Date.now()` (passed as `now`). -/
def mkGitMetadataColorManager (maxCommits maxAuthors oldestDate newestDate now : ℚ) :
    GitMetadataColorManager :=
  let mc := jsOr maxCommits 1
  let ma := jsOr maxAuthors 1
  let od := jsOr oldestDate now
  let nd := jsOr newestDate now
  ⟨mc, ma, od, nd, nd - od⟩

structure ColorOptions where
  useFrequency : Bool := true
  useAge : Bool := true
  colorBlindMode : Bool := false
  deriving DecidableEq, Repr

structure HSL where
  hue : ℚ
  saturation : ℚ
  lightness : ℚ
  deriving DecidableEq, Repr

/-- `getColorForBuilding(gitMetadata, options)`; `now` stands for
`Date.now()` (milliseconds). -/
def GitMetadataColorManager.getColorForBuilding (m : GitMetadataColorManager)
    (gitMetadata : Option GitMetadata) (options : ColorOptions) (now : ℚ) : HSL :=
  let hue : ℚ :=
    match gitMetadata with
    | some g =>
      match g.commits with
      | some commits =>
        if options.useFrequency then
          let normalizedFrequency : ℚ := min 1 ((commits : ℚ) / m.maxCommits)
          if options.colorBlindMode then 270 - normalizedFrequency * 240
          else 240 - normalizedFrequency * 240
        else 200
      | none => 200
    | none => 200
  let saturation : ℚ :=
    match gitMetadata with
    | some g =>
      match g.lastModified with
      | some lastModifiedTime =>
        if options.useAge then
          let daysSinceChange : ℚ := (now - lastModifiedTime) / (1000 * 60 * 60 * 24)
          let ageFactor : ℚ := max 0 (min 1 (1 - daysSinceChange / 365))
          20 + ageFactor * 50
        else 70
      | none => 70
    | none => 70
  ⟨hue, saturation, 50⟩

structure Shades where
  top : String
  right : String
  left : String
  deriving DecidableEq, Repr

/-- `hsl(h, s%, l%)` color string. -/
def hslString (h s l : ℚ) : String :=
  "hsl(" ++ toString h ++ ", " ++ toString s ++ "%, " ++ toString l ++ "%)"

/-- `getShades(baseColor)`; the method reads no manager state. -/
def getShades (baseColor : HSL) : Shades :=
  ⟨hslString baseColor.hue baseColor.saturation (baseColor.lightness + 20),
   hslString baseColor.hue baseColor.saturation baseColor.lightness,
   hslString baseColor.hue baseColor.saturation (baseColor.lightness - 20)⟩

/-- `getFrequencyLabel(commits)`. -/
def getFrequencyLabel (commits : ℕ) : String :=
  if commits = 0 then "No changes"
  else if commits = 1 then "Single change"
  else if commits < 5 then "Low activity"
  else if commits < 15 then "Moderate activity"
  else if commits < 50 then "High activity"
  else "Very high activity"

/-! ## Building footprints and per-package layout -/

/-- `calculateBuildingFootprint(linesOfCode)`: square-root scaling clamped
to `[min, max]`; returns `(width, depth)`. -/
noncomputable def calculateBuildingFootprint (linesOfCode : ℚ) : ℝ × ℝ :=
  let scaleFactor := Real.sqrt ((linesOfCode : ℝ) / 50)
  (min maxBuildingWidth (max minBuildingWidth (buildingWidth * scaleFactor)),
   min maxBuildingDepth (max minBuildingDepth (buildingDepth * scaleFactor)))

noncomputable def footprintW (cls : ClassRec) : ℝ := (calculateBuildingFootprint cls.linesOfCode).1

noncomputable def footprintD (cls : ClassRec) : ℝ := (calculateBuildingFootprint cls.linesOfCode).2

/-- One entry of `calculatePackageLayout(...).positions`. -/
structure BuildingPos where
  x : ℝ
  y : ℝ
  cls : ClassRec

structure PackageLayout where
  width : ℝ
  height : ℝ
  depth : ℝ
  positions : List BuildingPos

/-- Mutable loop state of the `sortedClasses.forEach` in
`calculatePackageLayout`. -/
structure PackState where
  currentX : ℝ
  currentY : ℝ
  rowHeight : ℝ
  maxWidth : ℝ
  totalDepth : ℝ
  positions : List BuildingPos

/-- The row-wrap branch of the layout loop. -/
noncomputable def packWrap (st : PackState) : PackState :=
  { st with currentX := packagePadding,
            currentY := st.currentY + st.rowHeight + buildingSpacing,
            rowHeight := 0 }

/-- Placing one class at the cursor and advancing the tracking state. -/
noncomputable def packPlace (st : PackState) (cls : ClassRec) : PackState :=
  let footprint := calculateBuildingFootprint cls.linesOfCode
  { currentX := st.currentX + footprint.1 + buildingSpacing,
    currentY := st.currentY,
    rowHeight := max st.rowHeight footprint.2,
    maxWidth := max st.maxWidth (st.currentX + footprint.1),
    totalDepth := max st.totalDepth (st.currentY + footprint.2),
    positions := st.positions ++ [⟨st.currentX, st.currentY, cls⟩] }

/-- One iteration of the layout loop: wrap to a new row every
`maxBuildingsPerRow` buildings, place the class at the cursor, advance. -/
noncomputable def packStep (maxBuildingsPerRow : ℕ) (st : PackState) (ic : ℕ × ClassRec) :
    PackState :=
  packPlace (if 0 < ic.1 ∧ ic.1 % maxBuildingsPerRow = 0 then packWrap st else st) ic.2

/-- The final loop state of `calculatePackageLayout(pkg)`: classes sorted
descending by LOC (stable), row-packed with at most
`min(6, ceil(sqrt(classCount)))` buildings per row. -/
noncomputable def packFinal (pkg : PackageRec) : PackState :=
  (pkg.classes.insertionSort fun a b => b.linesOfCode < a.linesOfCode).enum.foldl
    (packStep (min 6 ⌈Real.sqrt (pkg.classes.length : ℝ)⌉₊))
    ⟨packagePadding, packagePadding, 0, 0, packagePadding, []⟩

/-- `calculatePackageLayout(pkg)`: package footprint = bounding box of the
packed buildings plus padding; platform height fixed at 5. -/
noncomputable def calculatePackageLayout (pkg : PackageRec) : PackageLayout :=
  ⟨(packFinal pkg).maxWidth + packagePadding, 5,
   (packFinal pkg).totalDepth + packagePadding, (packFinal pkg).positions⟩

/-! ## Cross-package layout (`layoutPackagesInRegion`, strategies) -/

structure Building where
  className : String
  packageName : String
  linesOfCode : ℚ
  gitMetadata : Option GitMetadata
  x : ℝ
  y : ℝ
  z : ℝ
  width : ℝ
  depth : ℝ
  height : ℝ
  color : String

structure PackageObj where
  name : String
  x : ℝ
  y : ℝ
  width : ℝ
  height : ℝ
  depth : ℝ
  z : ℝ
  buildings : List Building

/-- `calculatePackageMass(pkg)`: total lines of code. -/
def calculatePackageMass (pkg : PackageRec) : ℚ :=
  pkg.classes.foldl (fun sum cls => sum + cls.linesOfCode) 0

structure PkgWithMass where
  pkg : PackageRec
  mass : ℚ

/-- The building object pushed for one layout position (body of the
`pkgLayout.positions.forEach`). -/
noncomputable def mkBuilding (pkg : PackageRec) (packageX packageY : ℝ) (pos : BuildingPos) :
    Building :=
  let buildingHeight := max minBuildingHeight ((pos.cls.linesOfCode : ℝ) * locToHeightScale)
  let footprint := calculateBuildingFootprint pos.cls.linesOfCode
  { className := pos.cls.name,
    packageName := pkg.name,
    linesOfCode := pos.cls.linesOfCode,
    gitMetadata := pos.cls.gitMetadata,
    x := packageX + pos.x,
    y := packageY + pos.y,
    z := 5,
    width := footprint.1,
    depth := footprint.2,
    height := buildingHeight,
    color := buildingBaseColor }

/-- Mutable loop state of `layoutPackagesInRegion`; `packages` and
`buildings` are the slices appended to the global arrays. -/
structure RegionState where
  packageX : ℝ
  packageY : ℝ
  maxRowHeight : ℝ
  packages : List PackageObj
  buildings : List Building

noncomputable def regionStep (startX maxRowWidth : ℝ) (st : RegionState)
    (ip : ℕ × PkgWithMass) : RegionState :=
  let idx := ip.1
  let pkg := ip.2.pkg
  let pkgLayout := calculatePackageLayout pkg
  let st' :=
    if 0 < idx ∧ maxRowWidth < st.packageX - startX + pkgLayout.width then
      { st with packageX := startX,
                packageY := st.packageY + st.maxRowHeight + packageSpacing,
                maxRowHeight := 0 }
    else st
  let newBuildings := pkgLayout.positions.map (mkBuilding pkg st'.packageX st'.packageY)
  let packageObj : PackageObj :=
    { name := pkg.name, x := st'.packageX, y := st'.packageY,
      width := pkgLayout.width, height := pkgLayout.height, depth := pkgLayout.depth,
      z := 0, buildings := newBuildings }
  { packageX := st'.packageX + pkgLayout.width + packageSpacing,
    packageY := st'.packageY,
    maxRowHeight := max st'.maxRowHeight pkgLayout.depth,
    packages := st'.packages ++ [packageObj],
    buildings := st'.buildings ++ newBuildings }

/-- `layoutPackagesInRegion(packagesWithMass, startX, startY, maxRowWidth)`;
returns the package and building objects pushed, in push order. -/
noncomputable def layoutPackagesInRegion (packagesWithMass : List PkgWithMass)
    (startX startY maxRowWidth : ℝ) : List PackageObj × List Building :=
  let final := packagesWithMass.enum.foldl (regionStep startX maxRowWidth)
    ⟨startX, startY, 0, [], []⟩
  (final.packages, final.buildings)

/-- `layoutPackagesQuadrant(packagesWithMass)`: quartile split, four
quadrant regions laid out in order (center, right, bottom, top-left). -/
noncomputable def layoutPackagesQuadrant (packagesWithMass : List PkgWithMass) :
    List PackageObj × List Building :=
  let quartileSize := (packagesWithMass.length + 3) / 4
  let q1 := packagesWithMass.take quartileSize
  let q2 := (packagesWithMass.drop quartileSize).take quartileSize
  let q3 := (packagesWithMass.drop (quartileSize * 2)).take quartileSize
  let q4 := packagesWithMass.drop (quartileSize * 3)
  let packagesPerQuadrant := (packagesWithMass.length + 3) / 4
  let packagesPerRowInQuadrant := ⌈Real.sqrt (packagesPerQuadrant : ℝ)⌉₊
  let maxRowWidth := (packagesPerRowInQuadrant : ℝ) * estimatedPackageSize
  let r1 := layoutPackagesInRegion q1 maxRowWidth maxRowWidth maxRowWidth
  let r2 := layoutPackagesInRegion q2 (maxRowWidth * 2) 0 maxRowWidth
  let r3 := layoutPackagesInRegion q3 0 (maxRowWidth * 2) maxRowWidth
  let r4 := layoutPackagesInRegion q4 0 0 maxRowWidth
  (r1.1 ++ r2.1 ++ r3.1 ++ r4.1, r1.2 ++ r2.2 ++ r3.2 ++ r4.2)

/-- `layoutPackagesGrid(packagesWithMass)`: one square-ish wrapping grid. -/
noncomputable def layoutPackagesGrid (packagesWithMass : List PkgWithMass) :
    List PackageObj × List Building :=
  let packagesPerRow := ⌈Real.sqrt (packagesWithMass.length : ℝ)⌉₊
  let maxRowWidth := (packagesPerRow : ℝ) * estimatedPackageSize
  layoutPackagesInRegion packagesWithMass 0 0 maxRowWidth

/-! ## Git normalization (`calculateGitNormalization`) -/

/-- Loop state of the nested `forEach` scan over all classes. `oldest`
starts at `Infinity` (modelled `⊤`), `newest` at `0`. -/
structure GitScan where
  maxCommits : ℕ
  maxAuthors : ℕ
  oldest : WithTop ℚ
  newest : ℚ
  hasGitData : Bool

def gitScanClass (acc : GitScan) (cls : ClassRec) : GitScan :=
  match cls.gitMetadata with
  | none => acc
  | some g =>
    let acc := { acc with hasGitData := true }
    let acc :=
      match g.commits with
      | some c => { acc with maxCommits := max acc.maxCommits c }
      | none => acc
    let acc :=
      match g.authors with
      | some a => { acc with maxAuthors := max acc.maxAuthors a }
      | none => acc
    match g.lastModified with
    | some date => { acc with oldest := min acc.oldest (date : WithTop ℚ),
                              newest := max acc.newest date }
    | none => acc

def gitScan (data : DataSet) : GitScan :=
  data.packages.foldl (fun acc pkg => pkg.classes.foldl gitScanClass acc)
    ⟨0, 0, ⊤, 0, false⟩

/-- The normalization record stored in `CONFIG.gitNormalization` once git
data is present. -/
structure GitNormalization where
  maxCommits : ℕ
  maxAuthors : ℕ
  oldestDate : ℚ
  newestDate : ℚ
  deriving DecidableEq, Repr

/-- `calculateGitNormalization(data)`: `none` when no class carries git
metadata (the config and manager are then left untouched). -/
def calculateGitNormalization (data : DataSet) (now : ℚ) : Option GitNormalization :=
  let scan := gitScan data
  if scan.hasGitData then
    some { maxCommits := if scan.maxCommits = 0 then 1 else scan.maxCommits,
           maxAuthors := if scan.maxAuthors = 0 then 1 else scan.maxAuthors,
           oldestDate := scan.oldest.untop' now,
           newestDate := jsOr scan.newest now }
  else none

/-! ## View-fit calculation (`calculateViewTransform`) -/

/-- `Math.min(...)` over a list; the source folds from `Infinity`, and the
function is only consulted behind the non-empty guard, so the `[]` case is
arbitrary. -/
def foldMin (l : List ℝ) : ℝ :=
  match l with
  | [] => 0
  | x :: xs => xs.foldl min x

def foldMax (l : List ℝ) : ℝ :=
  match l with
  | [] => 0
  | x :: xs => xs.foldl max x

noncomputable def cityMinX (packages : List PackageObj) (buildings : List Building) : ℝ :=
  foldMin (packages.map (·.x) ++ buildings.map (·.x))

noncomputable def cityMaxX (packages : List PackageObj) (buildings : List Building) : ℝ :=
  foldMax (packages.map (fun p => p.x + p.width) ++ buildings.map (fun b => b.x + b.width))

noncomputable def cityMinY (packages : List PackageObj) (buildings : List Building) : ℝ :=
  foldMin (packages.map (·.y) ++ buildings.map (·.y))

noncomputable def cityMaxY (packages : List PackageObj) (buildings : List Building) : ℝ :=
  foldMax (packages.map (fun p => p.y + p.depth) ++ buildings.map (fun b => b.y + b.depth))

noncomputable def cityMinZ (packages : List PackageObj) (buildings : List Building) : ℝ :=
  foldMin (packages.map (·.z) ++ buildings.map (·.z))

noncomputable def cityMaxZ (packages : List PackageObj) (buildings : List Building) : ℝ :=
  foldMax (packages.map (fun p => p.z + p.height) ++ buildings.map (fun b => b.z + b.height))

/-- `toIsoRaw`: isometric projection without scale/offset. -/
noncomputable def toIsoRaw (x y z : ℝ) : ℝ × ℝ :=
  ((x - y) * Real.cos isoAngle, (x + y) * Real.sin isoAngle - z)

/-- The 8 projected corners of the city's 3D bounding box. -/
noncomputable def cityCorners (packages : List PackageObj) (buildings : List Building) :
    List (ℝ × ℝ) :=
  let minX := cityMinX packages buildings
  let maxX := cityMaxX packages buildings
  let minY := cityMinY packages buildings
  let maxY := cityMaxY packages buildings
  let minZ := cityMinZ packages buildings
  let maxZ := cityMaxZ packages buildings
  [toIsoRaw minX minY minZ, toIsoRaw maxX minY minZ,
   toIsoRaw maxX maxY minZ, toIsoRaw minX maxY minZ,
   toIsoRaw minX minY maxZ, toIsoRaw maxX minY maxZ,
   toIsoRaw maxX maxY maxZ, toIsoRaw minX maxY maxZ]

noncomputable def projMinX (packages : List PackageObj) (buildings : List Building) : ℝ :=
  foldMin ((cityCorners packages buildings).map Prod.fst)

noncomputable def projMaxX (packages : List PackageObj) (buildings : List Building) : ℝ :=
  foldMax ((cityCorners packages buildings).map Prod.fst)

noncomputable def projMinY (packages : List PackageObj) (buildings : List Building) : ℝ :=
  foldMin ((cityCorners packages buildings).map Prod.snd)

noncomputable def projMaxY (packages : List PackageObj) (buildings : List Building) : ℝ :=
  foldMax ((cityCorners packages buildings).map Prod.snd)

/-- `screenWidth` in `calculateViewTransform`. -/
noncomputable def projectedWidth (packages : List PackageObj) (buildings : List Building) : ℝ :=
  projMaxX packages buildings - projMinX packages buildings

noncomputable def projectedHeight (packages : List PackageObj) (buildings : List Building) : ℝ :=
  projMaxY packages buildings - projMinY packages buildings

/-- The scale/offset triple `calculateViewTransform` computes when some
content exists. Canvas padding is 50 on each side. -/
noncomputable def viewTransformResult (canvasWidth canvasHeight : ℝ)
    (packages : List PackageObj) (buildings : List Building) : ℝ × ℝ × ℝ :=
  let availableWidth := canvasWidth - 50 * 2
  let availableHeight := canvasHeight - 50 * 2
  let scaleX := availableWidth / projectedWidth packages buildings
  let scaleY := availableHeight / projectedHeight packages buildings
  let newScale := min (min scaleX scaleY) 1.5
  let scaledXs := ((cityCorners packages buildings).map Prod.fst).map (fun x => x * newScale)
  let scaledYs := ((cityCorners packages buildings).map Prod.snd).map (fun y => y * newScale)
  let screenCenterX := (foldMin scaledXs + foldMax scaledXs) / 2
  let screenCenterY := (foldMin scaledYs + foldMax scaledYs) / 2
  (newScale, canvasWidth / 2 - screenCenterX, canvasHeight / 2 - screenCenterY)

/-- `calculateViewTransform()`: `none` models the early `return` when there
is no content (no scale/offset mutation); otherwise
`some (scale, offsetX, offsetY)`. -/
noncomputable def calculateViewTransform (canvasWidth canvasHeight : ℝ)
    (packages : List PackageObj) (buildings : List Building) : Option (ℝ × ℝ × ℝ) :=
  match buildings, packages with
  | [], [] => none
  | _, _ => some (viewTransformResult canvasWidth canvasHeight packages buildings)

/-! ## Projection with view transform (`toIsometric`) -/

/-- `toIsometric(x, y, z)`; `scale`, `offsetX`, `offsetY` are the mutable
`CONFIG` camera fields, passed explicitly. -/
noncomputable def toIsometric (x y z scale offsetX offsetY : ℝ) : ℝ × ℝ :=
  let isoX := (x - y) * Real.cos isoAngle
  let isoY := (x + y) * Real.sin isoAngle - z
  (isoX * scale + offsetX, isoY * scale + offsetY)

/-! ## Application state and `processData` -/

inductive LayoutStrategy where
  | quadrant
  | grid
  deriving DecidableEq, Repr

/-- The module-level mutable state of the visualizer: `projectData`,
`buildings`, `packages`, the camera fields of `CONFIG`, the layout
strategy, and the git normalization products. -/
structure AppState where
  projectData : Option DataSet
  buildings : List Building
  packages : List PackageObj
  scale : ℝ
  offsetX : ℝ
  offsetY : ℝ
  layoutStrategy : LayoutStrategy
  gitNormalization : Option GitNormalization
  gitColorManager : Option GitMetadataColorManager

noncomputable def layoutForStrategy (strategy : LayoutStrategy)
    (packagesWithMass : List PkgWithMass) : List PackageObj × List Building :=
  match strategy with
  | .grid => layoutPackagesGrid packagesWithMass
  | .quadrant => layoutPackagesQuadrant packagesWithMass

/-- `processData(data)`: reset `buildings`/`packages`, sort packages by
mass (descending, stable), lay out under the current strategy, compute git
normalization (building the color manager when git data is present), and
auto-fit the view (left untouched when there is no content). -/
noncomputable def processData (s : AppState) (canvasWidth canvasHeight : ℝ)
    (data : DataSet) (now : ℚ) : AppState :=
  let packagesWithMass :=
    (data.packages.map (fun pkg => PkgWithMass.mk pkg (calculatePackageMass pkg))).insertionSort
      (fun a b => b.mass < a.mass)
  let laidOut := layoutForStrategy s.layoutStrategy packagesWithMass
  let norm := calculateGitNormalization data now
  let manager :=
    match norm with
    | some n => some (mkGitMetadataColorManager (n.maxCommits : ℚ) (n.maxAuthors : ℚ)
        n.oldestDate n.newestDate now)
    | none => s.gitColorManager
  let viewTransform := calculateViewTransform canvasWidth canvasHeight laidOut.1 laidOut.2
  { s with
    buildings := laidOut.2,
    packages := laidOut.1,
    gitNormalization := match norm with | some n => some n | none => s.gitNormalization,
    gitColorManager := manager,
    scale := match viewTransform with | some t => t.1 | none => s.scale,
    offsetX := match viewTransform with | some t => t.2.1 | none => s.offsetX,
    offsetY := match viewTransform with | some t => t.2.2 | none => s.offsetY }

/-! ## Building fill color selection (`drawBuilding`) -/

/-- The fill data `drawBuilding` draws with: either a flat base color (hex
string, shaded by RGB arithmetic) or the git HSL shade triple. -/
inductive FillChoice where
  | base (color : String)
  | gitShades (shades : Shades)
  deriving DecidableEq, Repr

structure GitVisualization where
  showFrequency : Bool
  showAge : Bool
  showRecentGlow : Bool
  deriving DecidableEq, Repr

/-- The color-selection prefix of `drawBuilding`: selection and hover
override, then git shading when metadata, a manager and `showGitData` are
all present, else the building's stored base color. -/
def buildingFillChoice (building : Building) (manager : Option GitMetadataColorManager)
    (showGitData : Bool) (gitVis : GitVisualization) (colorBlindMode : Bool)
    (isHovered isSelected : Bool) (now : ℚ) : FillChoice :=
  if isSelected then .base buildingSelectedColor
  else if isHovered then .base buildingHighlightColor
  else
    match building.gitMetadata, manager, showGitData with
    | some g, some m, true =>
      .gitShades (getShades (m.getColorForBuilding (some g)
        ⟨gitVis.showFrequency, gitVis.showAge, colorBlindMode⟩ now))
    | _, _, _ => .base building.color

/-! ## JavaScript number semantics for missing fields (NaN propagation)

A class record as read from JSON may lack `linesOfCode`; accessing it
yields `undefined`, and arithmetic (`+`, `*`, `Math.max`) on `undefined`
yields `NaN`, which then propagates. `none` models `undefined`/`NaN`. -/

def JSNum := Option ℚ

instance : DecidableEq JSNum := inferInstanceAs (DecidableEq (Option ℚ))

def jsAdd : JSNum → JSNum → JSNum
  | some a, some b => some (a + b)
  | _, _ => none

def jsMul : JSNum → JSNum → JSNum
  | some a, some b => some (a * b)
  | _, _ => none

/-- `Math.max` returns `NaN` if any argument is `NaN`. -/
def jsMax : JSNum → JSNum → JSNum
  | some a, some b => some (max a b)
  | _, _ => none

/-- A class record whose `linesOfCode` field may be missing. -/
structure RawClass where
  name : String
  linesOfCode : JSNum
  deriving DecidableEq

/-- `calculatePackageMass` under JavaScript number semantics:
`reduce((sum, cls) => sum + cls.linesOfCode, 0)`. -/
def calculatePackageMassJS (classes : List RawClass) : JSNum :=
  classes.foldl (fun sum cls => jsAdd sum cls.linesOfCode) (some 0)

/-- The building height computed in `layoutPackagesInRegion` —
`Math.max(CONFIG.minBuildingHeight, linesOfCode * CONFIG.locToHeightScale)`
— under JavaScript number semantics. -/
def buildingHeightJS (cls : RawClass) : JSNum :=
  jsMax (some 10) (jsMul cls.linesOfCode (some (8/10)))

/-! ## File input handling (`setupFileInput` / `reader.onload`) -/

/-- The `packages` property of a parsed JSON document: absent (or another
falsy value), present but not an array, or an array of packages. -/
inductive PackagesField where
  | missing
  | nonArray
  | array (packages : List PackageRec)

structure ParsedJson where
  packages : PackagesField

/-- The `reader.onload` body after `JSON.parse` succeeded: validate
`data.packages`, on failure report the thrown error and leave all state
untouched; on success store the dataset and re-process. -/
noncomputable def handleParsedFileData (s : AppState) (canvasWidth canvasHeight : ℝ)
    (now : ℚ) (data : ParsedJson) : AppState × Except String Unit :=
  match data.packages with
  | .array pkgs =>
    let dataset : DataSet := ⟨pkgs⟩
    (processData { s with projectData := some dataset } canvasWidth canvasHeight dataset now,
     .ok ())
  | _ => (s, .error "Invalid data format: missing packages array")

/-! ## Statement-level derived definitions -/

/-- Two laid-out buildings overlap when the interiors of their footprint
rectangles intersect. -/
noncomputable def buildingsOverlap (a b : BuildingPos) : Prop :=
  a.x < b.x + footprintW b.cls ∧ b.x < a.x + footprintW a.cls ∧
  a.y < b.y + footprintD b.cls ∧ b.y < a.y + footprintD a.cls

/-- Invariant carried through the `calculatePackageLayout` loop: every
placed building is either in the open row (at the cursor's `y`, strictly
left of the cursor, no deeper than `rowHeight`) or in a finished row
entirely above `currentY`; the placed buildings are pairwise
non-overlapping, inside the running bounding box, and the cursor stays at
or beyond the padding. -/
noncomputable def packInv (st : PackState) : Prop :=
  (∀ p ∈ st.positions,
    (p.y = st.currentY ∧ p.x + footprintW p.cls + buildingSpacing ≤ st.currentX ∧
      footprintD p.cls ≤ st.rowHeight) ∨
    p.y + footprintD p.cls ≤ st.currentY) ∧
  st.positions.Pairwise (fun a b => ¬ buildingsOverlap a b) ∧
  (∀ p ∈ st.positions,
    packagePadding ≤ p.x ∧ packagePadding ≤ p.y ∧
    p.x + footprintW p.cls ≤ st.maxWidth ∧ p.y + footprintD p.cls ≤ st.totalDepth) ∧
  packagePadding ≤ st.currentX ∧ packagePadding ≤ st.currentY ∧ 0 ≤ st.rowHeight

/-- Hue produced for a building whose metadata holds exactly a commit
count, with frequency coloring enabled. -/
def hueForCommits (m : GitMetadataColorManager) (colorBlindMode : Bool) (commits : ℕ) : ℚ :=
  (m.getColorForBuilding (some ⟨some commits, none, none⟩)
    ⟨true, true, colorBlindMode⟩ 0).hue

/-! ## Concrete sample inputs used by witnesses -/

noncomputable def initialState : AppState :=
  ⟨none, [], [], 1, 100, 100, .quadrant, none, none⟩

def witClass : ClassRec := ⟨"A", 0, none⟩

def witPackage : PackageRec := ⟨"p", [witClass]⟩

def witPos : BuildingPos := ⟨20, 20, witClass⟩

def classX : ClassRec := ⟨"X", 150, none⟩

def classY : ClassRec := ⟨"Y", 85, none⟩

def datasetAB : DataSet := ⟨[⟨"a.b", [classX, classY]⟩]⟩

noncomputable def stateAB : AppState := processData initialState 800 600 datasetAB 0

def gitClass : ClassRec := ⟨"G", 30, some ⟨some 0, none, none⟩⟩

def gitDataset : DataSet := ⟨[⟨"g", [gitClass]⟩]⟩

noncomputable def unitPackage : PackageObj := ⟨"p", 0, 0, 1, 0, 1, 0, []⟩

/-! # Claim theorems -/

/-- C4: `toIsometric` implements the fixed oblique projection
`screenX = (x − y)·cos(30°)·scale + offsetX` and
`screenY = ((x + y)·sin(30°) − z)·scale + offsetY` (30° = π/6), and two
points differing only in `z` have the same screen x coordinate. -/
theorem toIsometric_projection_spec (x y z scale offsetX offsetY : ℝ) :
    toIsometric x y z scale offsetX offsetY =
      ((x - y) * Real.cos (Real.pi / 6) * scale + offsetX,
       ((x + y) * Real.sin (Real.pi / 6) - z) * scale + offsetY) ∧
    ∀ z1 z2 : ℝ,
      (toIsometric x y z1 scale offsetX offsetY).1 =
        (toIsometric x y z2 scale offsetX offsetY).1 :=
  ⟨rfl, fun _ _ => rfl⟩

/-- C7: `getFrequencyLabel` is total on the non-negative integers with the
exact boundaries 0, 1, [2,5), [5,15), [15,50), [50,∞). -/
theorem getFrequencyLabel_boundaries :
    getFrequencyLabel 0 = "No changes" ∧
    getFrequencyLabel 1 = "Single change" ∧
    (∀ c, 2 ≤ c → c < 5 → getFrequencyLabel c = "Low activity") ∧
    (∀ c, 5 ≤ c → c < 15 → getFrequencyLabel c = "Moderate activity") ∧
    (∀ c, 15 ≤ c → c < 50 → getFrequencyLabel c = "High activity") ∧
    (∀ c, 50 ≤ c → getFrequencyLabel c = "Very high activity") := by
  refine ⟨rfl, rfl, fun c h1 h2 => ?_, fun c h1 h2 => ?_, fun c h1 h2 => ?_,
    fun c h1 => ?_⟩
  · unfold getFrequencyLabel
    rw [if_neg (by omega), if_neg (by omega), if_pos (by omega)]
  · unfold getFrequencyLabel
    rw [if_neg (by omega), if_neg (by omega), if_neg (by omega), if_pos (by omega)]
  · unfold getFrequencyLabel
    rw [if_neg (by omega), if_neg (by omega), if_neg (by omega), if_neg (by omega),
      if_pos (by omega)]
  · unfold getFrequencyLabel
    rw [if_neg (by omega), if_neg (by omega), if_neg (by omega), if_neg (by omega),
      if_neg (by omega)]

theorem getFrequencyLabel_boundaries_witness :
    getFrequencyLabel 3 = "Low activity" ∧ getFrequencyLabel 7 = "Moderate activity" ∧
    getFrequencyLabel 20 = "High activity" ∧ getFrequencyLabel 99 = "Very high activity" :=
  ⟨getFrequencyLabel_boundaries.2.2.1 3 (by decide) (by decide),
   getFrequencyLabel_boundaries.2.2.2.1 7 (by decide) (by decide),
   getFrequencyLabel_boundaries.2.2.2.2.1 20 (by decide) (by decide),
   getFrequencyLabel_boundaries.2.2.2.2.2 99 (by decide)⟩

/-- C2 (code bug): a class record missing `linesOfCode` is not coerced to
0 — under JavaScript number semantics the access yields `undefined`, whose
arithmetic is NaN, so `calculatePackageMass` returns NaN (not 0) and the
building height in `layoutPackagesInRegion` is NaN (not the
`max(10, 0·0.8) = 10` an explicit 0 would give). -/
theorem missing_linesOfCode_propagates_nan :
    calculatePackageMassJS [⟨"A", none⟩] = none ∧
    buildingHeightJS ⟨"A", none⟩ = none ∧
    calculatePackageMassJS [⟨"A", some 0⟩] = some 0 ∧
    buildingHeightJS ⟨"A", some 0⟩ = some 10 ∧
    calculatePackageMassJS [⟨"A", none⟩] ≠ calculatePackageMassJS [⟨"A", some 0⟩] ∧
    buildingHeightJS ⟨"A", none⟩ ≠ buildingHeightJS ⟨"A", some 0⟩ := by
  refine ⟨rfl, rfl, ?_, ?_, ?_, ?_⟩ <;>
    simp [calculatePackageMassJS, buildingHeightJS, jsAdd, jsMul, jsMax]

/-- C9: if the parsed JSON's `packages` field is missing or not an array,
loading reports exactly the error "Invalid data format: missing packages
array" and returns the previous application state unchanged. -/
theorem invalid_packages_rejected (s : AppState) (cw ch : ℝ) (now : ℚ) (j : ParsedJson)
    (h : j.packages = .missing ∨ j.packages = .nonArray) :
    handleParsedFileData s cw ch now j =
      (s, .error "Invalid data format: missing packages array") := by
  rcases j with ⟨pf⟩
  rcases h with h | h <;> (subst h; rfl)

theorem invalid_packages_rejected_witness :
    handleParsedFileData initialState 800 600 0 ⟨.missing⟩ =
      (initialState, .error "Invalid data format: missing packages array") :=
  invalid_packages_rejected initialState 800 600 0 ⟨.missing⟩ (Or.inl rfl)

/-- C8: `processData` is deterministic — running it a second time on the
same dataset (the layout strategy is preserved by `processData` itself)
produces identical building and package placements. -/
theorem processData_deterministic (s : AppState) (cw ch : ℝ) (data : DataSet) (now : ℚ) :
    (processData (processData s cw ch data now) cw ch data now).buildings =
      (processData s cw ch data now).buildings ∧
    (processData (processData s cw ch data now) cw ch data now).packages =
      (processData s cw ch data now).packages :=
  ⟨rfl, rfl⟩

/-- C5: with frequency coloring enabled, the hue is monotonically
non-increasing in the commit count; hue(0) = 240 and hue(maxCommits) = 0
in standard mode, 270 and 30 in color-blind mode; when frequency is
disabled or the commits field is absent the hue defaults to 200. -/
theorem getColorForBuilding_hue_spec (m : GitMetadataColorManager) (k : ℕ)
    (hk : m.maxCommits = (k : ℚ)) (hpos : 0 < k) :
    (∀ (cb : Bool) (c1 c2 : ℕ), c1 ≤ c2 →
      hueForCommits m cb c2 ≤ hueForCommits m cb c1) ∧
    hueForCommits m false 0 = 240 ∧ hueForCommits m false k = 0 ∧
    hueForCommits m true 0 = 270 ∧ hueForCommits m true k = 30 ∧
    (∀ (g : Option GitMetadata) (opts : ColorOptions) (now : ℚ),
      opts.useFrequency = false ∨ g.bind GitMetadata.commits = none →
      (m.getColorForBuilding g opts now).hue = 200) := by
  have hform : ∀ (cb : Bool) (c : ℕ), hueForCommits m cb c =
      (if cb then (270:ℚ) else 240) - min 1 ((c:ℚ) / m.maxCommits) * 240 := by
    intro cb c
    cases cb <;> rfl
  have hmpos : (0:ℚ) < m.maxCommits := by
    rw [hk]
    exact_mod_cast hpos
  have hone : min (1:ℚ) ((0:ℚ) / m.maxCommits) = 0 := by
    rw [zero_div]
    exact min_eq_right (by norm_num)
  have hself : min (1:ℚ) ((k:ℚ) / m.maxCommits) = 1 := by
    rw [hk, div_self (ne_of_gt (by exact_mod_cast hpos))]
    exact min_self 1
  refine ⟨?_, ?_, ?_, ?_, ?_, ?_⟩
  · intro cb c1 c2 h
    rw [hform, hform]
    have hdiv : (c1:ℚ) / m.maxCommits ≤ (c2:ℚ) / m.maxCommits :=
      (div_le_div_iff_of_pos_right hmpos).mpr (by exact_mod_cast h)
    have hmin : min (1:ℚ) ((c1:ℚ) / m.maxCommits) ≤ min 1 ((c2:ℚ) / m.maxCommits) :=
      min_le_min le_rfl hdiv
    have := mul_le_mul_of_nonneg_right hmin (by norm_num : (0:ℚ) ≤ 240)
    linarith
  · rw [hform]
    push_cast
    rw [hone]
    norm_num
  · rw [hform, hself]
    norm_num
  · rw [hform]
    push_cast
    rw [hone]
    norm_num
  · rw [hform, hself]
    norm_num
  · intro g opts now h
    rcases g with _ | g
    · rfl
    · rcases g with ⟨gc, ga, gl⟩
      rcases gc with _ | c
      · rfl
      · rcases h with h | h
        · rcases opts with ⟨uf, ua, cbm⟩
          subst h
          rfl
        · simp at h

theorem getColorForBuilding_hue_spec_witness :
    hueForCommits ⟨45, 3, 0, 0, 0⟩ false 0 = 240 ∧
    hueForCommits ⟨45, 3, 0, 0, 0⟩ false 45 = 0 ∧
    hueForCommits ⟨45, 3, 0, 0, 0⟩ true 0 = 270 ∧
    hueForCommits ⟨45, 3, 0, 0, 0⟩ true 45 = 30 := by
  have h := getColorForBuilding_hue_spec ⟨45, 3, 0, 0, 0⟩ 45 (by norm_num) (by norm_num)
  exact ⟨h.2.1, h.2.2.1, h.2.2.2.1, h.2.2.2.2.1⟩

theorem jsOr_of_ne {a b : ℚ} (h : a ≠ 0) : jsOr a b = a := if_neg h

theorem gitScanClass_hasGit (acc : GitScan) (cls : ClassRec) :
    (gitScanClass acc cls).hasGitData = (acc.hasGitData || cls.gitMetadata.isSome) := by
  rcases cls with ⟨n, l, g⟩
  rcases g with _ | ⟨gc, ga, gl⟩
  · simp [gitScanClass]
  · rcases gc with _ | c <;> rcases ga with _ | a <;> rcases gl with _ | d <;>
      simp [gitScanClass]

theorem gitScanClasses_hasGit (l : List ClassRec) (acc : GitScan) :
    (l.foldl gitScanClass acc).hasGitData =
      (acc.hasGitData || l.any fun c => c.gitMetadata.isSome) := by
  induction l generalizing acc with
  | nil => simp
  | cons c t ih => simp [ih, gitScanClass_hasGit, Bool.or_assoc]

theorem gitScanPackages_hasGit (ps : List PackageRec) (acc : GitScan) :
    (ps.foldl (fun acc pkg => pkg.classes.foldl gitScanClass acc) acc).hasGitData =
      (acc.hasGitData || ps.any fun p => p.classes.any fun c => c.gitMetadata.isSome) := by
  induction ps generalizing acc with
  | nil => simp
  | cons p t ih => simp [ih, gitScanClasses_hasGit, Bool.or_assoc]

theorem gitScanClass_dates (acc : GitScan) (cls : ClassRec)
    (h : ∀ g, cls.gitMetadata = some g → g.lastModified = none) :
    (gitScanClass acc cls).oldest = acc.oldest ∧
      (gitScanClass acc cls).newest = acc.newest := by
  rcases cls with ⟨n, l, g⟩
  rcases g with _ | ⟨gc, ga, gl⟩
  · simp [gitScanClass]
  · have hgl : gl = none := h ⟨gc, ga, gl⟩ rfl
    subst hgl
    rcases gc with _ | c <;> rcases ga with _ | a <;> simp [gitScanClass]

theorem gitScanClasses_dates (l : List ClassRec) (acc : GitScan)
    (h : ∀ cls ∈ l, ∀ g, cls.gitMetadata = some g → g.lastModified = none) :
    (l.foldl gitScanClass acc).oldest = acc.oldest ∧
      (l.foldl gitScanClass acc).newest = acc.newest := by
  induction l generalizing acc with
  | nil => exact ⟨rfl, rfl⟩
  | cons c t ih =>
    have hc := gitScanClass_dates acc c (h c (List.mem_cons_self c t))
    have ht := ih (gitScanClass acc c) (fun cls hcls => h cls (List.mem_cons_of_mem c hcls))
    exact ⟨ht.1.trans hc.1, ht.2.trans hc.2⟩

theorem gitScanPackages_dates (ps : List PackageRec) (acc : GitScan)
    (h : ∀ pkg ∈ ps, ∀ cls ∈ pkg.classes, ∀ g, cls.gitMetadata = some g →
      g.lastModified = none) :
    (ps.foldl (fun acc pkg => pkg.classes.foldl gitScanClass acc) acc).oldest = acc.oldest ∧
      (ps.foldl (fun acc pkg => pkg.classes.foldl gitScanClass acc) acc).newest = acc.newest := by
  induction ps generalizing acc with
  | nil => exact ⟨rfl, rfl⟩
  | cons p t ih =>
    have hp := gitScanClasses_dates p.classes acc (h p (List.mem_cons_self p t))
    have ht := ih (p.classes.foldl gitScanClass acc)
      (fun pkg hpkg => h pkg (List.mem_cons_of_mem p hpkg))
    exact ⟨ht.1.trans hp.1, ht.2.trans hp.2⟩

/-- C10: whenever some class carries git metadata, the normalization
record exists with `maxCommits ≥ 1` and `maxAuthors ≥ 1` (zero maxima are
coerced to 1), the constructed `GitMetadataColorManager` therefore has a
non-zero `maxCommits` (so `commits / maxCommits` never divides by zero),
and when no class has a `lastModified` date both dates default to the
current time. -/
theorem gitNormalization_safe (data : DataSet) (now : ℚ)
    (h : ∃ pkg ∈ data.packages, ∃ cls ∈ pkg.classes, cls.gitMetadata.isSome = true) :
    ∃ norm, calculateGitNormalization data now = some norm ∧
      1 ≤ norm.maxCommits ∧ 1 ≤ norm.maxAuthors ∧
      1 ≤ (mkGitMetadataColorManager (norm.maxCommits : ℚ) (norm.maxAuthors : ℚ)
        norm.oldestDate norm.newestDate now).maxCommits ∧
      1 ≤ (mkGitMetadataColorManager (norm.maxCommits : ℚ) (norm.maxAuthors : ℚ)
        norm.oldestDate norm.newestDate now).maxAuthors ∧
      (mkGitMetadataColorManager (norm.maxCommits : ℚ) (norm.maxAuthors : ℚ)
        norm.oldestDate norm.newestDate now).maxCommits ≠ 0 ∧
      ((∀ pkg ∈ data.packages, ∀ cls ∈ pkg.classes, ∀ g, cls.gitMetadata = some g →
          g.lastModified = none) →
        norm.oldestDate = now ∧ norm.newestDate = now) := by
  have hflag : (gitScan data).hasGitData = true := by
    obtain ⟨pkg, hpkg, cls, hcls, hsome⟩ := h
    unfold gitScan
    rw [gitScanPackages_hasGit]
    simp only [Bool.false_or, List.any_eq_true]
    exact ⟨pkg, hpkg, cls, hcls, hsome⟩
  have heq : calculateGitNormalization data now = some
      { maxCommits := if (gitScan data).maxCommits = 0 then 1 else (gitScan data).maxCommits,
        maxAuthors := if (gitScan data).maxAuthors = 0 then 1 else (gitScan data).maxAuthors,
        oldestDate := (gitScan data).oldest.untop' now,
        newestDate := jsOr (gitScan data).newest now } := by
    simp [calculateGitNormalization, hflag]
  have hmc : 1 ≤ (if (gitScan data).maxCommits = 0 then 1 else (gitScan data).maxCommits) := by
    split
    · exact le_rfl
    · omega
  have hma : 1 ≤ (if (gitScan data).maxAuthors = 0 then 1 else (gitScan data).maxAuthors) := by
    split
    · exact le_rfl
    · omega
  have hmcQ : (1:ℚ) ≤
      (((if (gitScan data).maxCommits = 0 then 1 else (gitScan data).maxCommits) : ℕ) : ℚ) := by
    exact_mod_cast hmc
  have hmaQ : (1:ℚ) ≤
      (((if (gitScan data).maxAuthors = 0 then 1 else (gitScan data).maxAuthors) : ℕ) : ℚ) := by
    exact_mod_cast hma
  have hmcne :
      (((if (gitScan data).maxCommits = 0 then 1 else (gitScan data).maxCommits) : ℕ) : ℚ) ≠ 0 :=
    ne_of_gt (lt_of_lt_of_le one_pos hmcQ)
  have hmane :
      (((if (gitScan data).maxAuthors = 0 then 1 else (gitScan data).maxAuthors) : ℕ) : ℚ) ≠ 0 :=
    ne_of_gt (lt_of_lt_of_le one_pos hmaQ)
  refine ⟨_, heq, hmc, hma, ?_, ?_, ?_, ?_⟩
  · simp only [mkGitMetadataColorManager]
    rw [jsOr_of_ne hmcne]
    exact hmcQ
  · simp only [mkGitMetadataColorManager]
    rw [jsOr_of_ne hmane]
    exact hmaQ
  · simp only [mkGitMetadataColorManager]
    rw [jsOr_of_ne hmcne]
    exact hmcne
  · intro hnone
    have hd := gitScanPackages_dates data.packages ⟨0, 0, ⊤, 0, false⟩ hnone
    have ho : (gitScan data).oldest = ⊤ := hd.1
    have hn : (gitScan data).newest = 0 := hd.2
    constructor
    · simp [ho]
    · simp [hn, jsOr]

theorem gitNormalization_safe_witness :
    ∃ norm, calculateGitNormalization gitDataset 0 = some norm ∧
      1 ≤ norm.maxCommits ∧ 1 ≤ norm.maxAuthors ∧
      1 ≤ (mkGitMetadataColorManager (norm.maxCommits : ℚ) (norm.maxAuthors : ℚ)
        norm.oldestDate norm.newestDate 0).maxCommits ∧
      1 ≤ (mkGitMetadataColorManager (norm.maxCommits : ℚ) (norm.maxAuthors : ℚ)
        norm.oldestDate norm.newestDate 0).maxAuthors ∧
      (mkGitMetadataColorManager (norm.maxCommits : ℚ) (norm.maxAuthors : ℚ)
        norm.oldestDate norm.newestDate 0).maxCommits ≠ 0 ∧
      ((∀ pkg ∈ gitDataset.packages, ∀ cls ∈ pkg.classes, ∀ g, cls.gitMetadata = some g →
          g.lastModified = none) →
        norm.oldestDate = 0 ∧ norm.newestDate = 0) :=
  gitNormalization_safe gitDataset 0
    ⟨⟨"g", [gitClass]⟩, by simp [gitDataset], gitClass, by simp, rfl⟩

theorem foldl_min_le_init (xs : List ℝ) (x : ℝ) : xs.foldl min x ≤ x := by
  induction xs generalizing x with
  | nil => exact le_rfl
  | cons y t ih => exact le_trans (ih (min x y)) (min_le_left x y)

theorem foldl_min_le_of_mem (xs : List ℝ) (x a : ℝ) (h : a ∈ xs) : xs.foldl min x ≤ a := by
  induction xs generalizing x with
  | nil => cases h
  | cons y t ih =>
    rcases List.mem_cons.mp h with h | h
    · subst h
      exact le_trans (foldl_min_le_init t (min x a)) (min_le_right x a)
    · exact ih (min x y) h

theorem foldMin_le_of_mem {l : List ℝ} {a : ℝ} (h : a ∈ l) : foldMin l ≤ a := by
  rcases l with _ | ⟨x, xs⟩
  · cases h
  · rcases List.mem_cons.mp h with h | h
    · subst h
      exact foldl_min_le_init xs a
    · exact foldl_min_le_of_mem xs x a h

theorem init_le_foldl_max (xs : List ℝ) (x : ℝ) : x ≤ xs.foldl max x := by
  induction xs generalizing x with
  | nil => exact le_rfl
  | cons y t ih => exact le_trans (le_max_left x y) (ih (max x y))

theorem mem_le_foldl_max (xs : List ℝ) (x a : ℝ) (h : a ∈ xs) : a ≤ xs.foldl max x := by
  induction xs generalizing x with
  | nil => cases h
  | cons y t ih =>
    rcases List.mem_cons.mp h with h | h
    · subst h
      exact le_trans (le_max_right x a) (init_le_foldl_max t (max x a))
    · exact ih (max x y) h

theorem le_foldMax_of_mem {l : List ℝ} {a : ℝ} (h : a ∈ l) : a ≤ foldMax l := by
  rcases l with _ | ⟨x, xs⟩
  · cases h
  · rcases List.mem_cons.mp h with h | h
    · subst h
      exact init_le_foldl_max xs a
    · exact mem_le_foldl_max xs x a h

theorem min_mul_nonpos (a b c : ℝ) (hc : c ≤ 0) : min a b * c = max (a * c) (b * c) := by
  rcases le_total a b with h | h
  · rw [min_eq_left h, max_eq_left (mul_le_mul_of_nonpos_right h hc)]
  · rw [min_eq_right h, max_eq_right (mul_le_mul_of_nonpos_right h hc)]

theorem max_mul_nonpos (a b c : ℝ) (hc : c ≤ 0) : max a b * c = min (a * c) (b * c) := by
  rcases le_total a b with h | h
  · rw [max_eq_right h, min_eq_right (mul_le_mul_of_nonpos_right h hc)]
  · rw [max_eq_left h, min_eq_left (mul_le_mul_of_nonpos_right h hc)]

theorem foldl_min_map_mul_nonneg (s : ℝ) (hs : 0 ≤ s) (xs : List ℝ) (x : ℝ) :
    (xs.map fun a => a * s).foldl min (x * s) = xs.foldl min x * s := by
  induction xs generalizing x with
  | nil => rfl
  | cons y t ih =>
    simp only [List.map_cons, List.foldl_cons]
    rw [← min_mul_of_nonneg x y hs, ih]

theorem foldl_max_map_mul_nonneg (s : ℝ) (hs : 0 ≤ s) (xs : List ℝ) (x : ℝ) :
    (xs.map fun a => a * s).foldl max (x * s) = xs.foldl max x * s := by
  induction xs generalizing x with
  | nil => rfl
  | cons y t ih =>
    simp only [List.map_cons, List.foldl_cons]
    rw [← max_mul_of_nonneg x y hs, ih]

theorem foldl_min_map_mul_nonpos (s : ℝ) (hs : s ≤ 0) (xs : List ℝ) (x : ℝ) :
    (xs.map fun a => a * s).foldl min (x * s) = xs.foldl max x * s := by
  induction xs generalizing x with
  | nil => rfl
  | cons y t ih =>
    simp only [List.map_cons, List.foldl_cons]
    rw [← max_mul_nonpos x y s hs, ih]

theorem foldl_max_map_mul_nonpos (s : ℝ) (hs : s ≤ 0) (xs : List ℝ) (x : ℝ) :
    (xs.map fun a => a * s).foldl max (x * s) = xs.foldl min x * s := by
  induction xs generalizing x with
  | nil => rfl
  | cons y t ih =>
    simp only [List.map_cons, List.foldl_cons]
    rw [← min_mul_nonpos x y s hs, ih]

/-- The min and the max of a list scaled by `s` sum to `s` times the sum of
the original min and max, whatever the sign of `s`. -/
theorem foldMin_add_foldMax_map_mul (s : ℝ) (l : List ℝ) :
    foldMin (l.map fun a => a * s) + foldMax (l.map fun a => a * s) =
      (foldMin l + foldMax l) * s := by
  rcases l with _ | ⟨x, xs⟩
  · simp [foldMin, foldMax]
  · rcases le_total 0 s with hs | hs
    · simp only [foldMin, foldMax, List.map_cons]
      rw [foldl_min_map_mul_nonneg s hs, foldl_max_map_mul_nonneg s hs, add_mul]
    · simp only [foldMin, foldMax, List.map_cons]
      rw [foldl_min_map_mul_nonpos s hs, foldl_max_map_mul_nonpos s hs, add_mul, add_comm]

/-- C3: with content present (and positive projected extents so the
divisions are meaningful), `calculateViewTransform` sets the scale to
`min(availableWidth / projectedWidth, availableHeight / projectedHeight,
1.5)` where the available sizes are the canvas minus a 50px padding on
each side, and sets the offsets so that the center of the scaled projected
bounding box (over all 8 projected corners of the 3D bounding box) lands
at the canvas center. -/
theorem calculateViewTransform_spec (canvasWidth canvasHeight : ℝ)
    (packages : List PackageObj) (buildings : List Building)
    (hne : buildings ≠ [] ∨ packages ≠ [])
    (hw : 0 < projectedWidth packages buildings)
    (hh : 0 < projectedHeight packages buildings) :
    ∃ scale offsetX offsetY,
      calculateViewTransform canvasWidth canvasHeight packages buildings =
        some (scale, offsetX, offsetY) ∧
      scale = min (min ((canvasWidth - 100) / projectedWidth packages buildings)
        ((canvasHeight - 100) / projectedHeight packages buildings)) 1.5 ∧
      scale * ((projMinX packages buildings + projMaxX packages buildings) / 2) + offsetX =
        canvasWidth / 2 ∧
      scale * ((projMinY packages buildings + projMaxY packages buildings) / 2) + offsetY =
        canvasHeight / 2 := by
  have hsome : calculateViewTransform canvasWidth canvasHeight packages buildings =
      some (viewTransformResult canvasWidth canvasHeight packages buildings) := by
    rcases buildings with _ | ⟨b, bs⟩
    · rcases packages with _ | ⟨p, ps⟩
      · rcases hne with h | h <;> simp at h
      · rfl
    · rfl
  refine ⟨(viewTransformResult canvasWidth canvasHeight packages buildings).1,
    (viewTransformResult canvasWidth canvasHeight packages buildings).2.1,
    (viewTransformResult canvasWidth canvasHeight packages buildings).2.2,
    by rw [hsome], ?_, ?_, ?_⟩
  · simp only [viewTransformResult]
    norm_num
  · simp only [viewTransformResult, projMinX, projMaxX]
    rw [foldMin_add_foldMax_map_mul]
    ring
  · simp only [viewTransformResult, projMinY, projMaxY]
    rw [foldMin_add_foldMax_map_mul]
    ring

theorem calculateViewTransform_spec_witness :
    ∃ scale offsetX offsetY,
      calculateViewTransform 800 600 [unitPackage] [] = some (scale, offsetX, offsetY) ∧
      scale = min (min ((800 - 100) / projectedWidth [unitPackage] [])
        ((600 - 100) / projectedHeight [unitPackage] [])) 1.5 ∧
      scale * ((projMinX [unitPackage] [] + projMaxX [unitPackage] []) / 2) + offsetX =
        800 / 2 ∧
      scale * ((projMinY [unitPackage] [] + projMaxY [unitPackage] []) / 2) + offsetY =
        600 / 2 := by
  have hminx : cityMinX [unitPackage] [] = 0 := by simp [cityMinX, foldMin, unitPackage]
  have hmaxx : cityMaxX [unitPackage] [] = 1 := by simp [cityMaxX, foldMax, unitPackage]
  have hminy : cityMinY [unitPackage] [] = 0 := by simp [cityMinY, foldMin, unitPackage]
  have hmaxy : cityMaxY [unitPackage] [] = 1 := by simp [cityMaxY, foldMax, unitPackage]
  have hminz : cityMinZ [unitPackage] [] = 0 := by simp [cityMinZ, foldMin, unitPackage]
  have hmaxz : cityMaxZ [unitPackage] [] = 0 := by simp [cityMaxZ, foldMax, unitPackage]
  have hcos : 0 < Real.cos isoAngle := by
    rw [isoAngle, Real.cos_pi_div_six]
    positivity
  have hsin : Real.sin isoAngle = 1 / 2 := by
    rw [isoAngle, Real.sin_pi_div_six]
  apply calculateViewTransform_spec
  · exact Or.inr (by simp)
  · have hm1 : ((cityMaxX [unitPackage] [] - cityMinY [unitPackage] []) * Real.cos isoAngle)
        ∈ (cityCorners [unitPackage] []).map Prod.fst := by
      simp [cityCorners, toIsoRaw]
    have hm2 : ((cityMinX [unitPackage] [] - cityMaxY [unitPackage] []) * Real.cos isoAngle)
        ∈ (cityCorners [unitPackage] []).map Prod.fst := by
      simp [cityCorners, toIsoRaw]
    have h1 := le_foldMax_of_mem hm1
    have h2 := foldMin_le_of_mem hm2
    rw [hmaxx, hminy] at h1
    rw [hminx, hmaxy] at h2
    norm_num at h1 h2
    simp only [projectedWidth, projMaxX, projMinX]
    linarith
  · have hm1 : ((cityMaxX [unitPackage] [] + cityMaxY [unitPackage] []) * Real.sin isoAngle -
        cityMinZ [unitPackage] []) ∈ (cityCorners [unitPackage] []).map Prod.snd := by
      simp [cityCorners, toIsoRaw]
    have hm2 : ((cityMinX [unitPackage] [] + cityMinY [unitPackage] []) * Real.sin isoAngle -
        cityMaxZ [unitPackage] []) ∈ (cityCorners [unitPackage] []).map Prod.snd := by
      simp [cityCorners, toIsoRaw]
    have h1 := le_foldMax_of_mem hm1
    have h2 := foldMin_le_of_mem hm2
    rw [hmaxx, hmaxy, hminz, hsin] at h1
    rw [hminx, hminy, hmaxz, hsin] at h2
    norm_num at h1 h2
    simp only [projectedHeight, projMaxY, projMinY]
    linarith

theorem footprintW_ge (cls : ClassRec) : (20:ℝ) ≤ footprintW cls := by
  have hdef : footprintW cls = min maxBuildingWidth (max minBuildingWidth
      (buildingWidth * Real.sqrt ((cls.linesOfCode : ℝ) / 50))) := rfl
  rw [hdef]
  refine le_min (by norm_num [maxBuildingWidth]) ?_
  exact le_trans (by norm_num [minBuildingWidth]) (le_max_left _ _)

theorem footprintD_ge (cls : ClassRec) : (20:ℝ) ≤ footprintD cls := by
  have hdef : footprintD cls = min maxBuildingDepth (max minBuildingDepth
      (buildingDepth * Real.sqrt ((cls.linesOfCode : ℝ) / 50))) := rfl
  rw [hdef]
  refine le_min (by norm_num [maxBuildingDepth]) ?_
  exact le_trans (by norm_num [minBuildingDepth]) (le_max_left _ _)

theorem packInv_wrap (st : PackState) (h : packInv st) : packInv (packWrap st) := by
  obtain ⟨h1, h2, h3, hx, hy, hr⟩ := h
  have hsp : (0:ℝ) ≤ buildingSpacing := by norm_num [buildingSpacing]
  refine ⟨?_, h2, ?_, le_rfl, ?_, le_rfl⟩
  · intro p hp
    right
    show p.y + footprintD p.cls ≤ st.currentY + st.rowHeight + buildingSpacing
    rcases h1 p hp with ⟨hpy, _, hpd⟩ | hpy
    · rw [hpy]
      linarith
    · linarith
  · intro p hp
    exact h3 p hp
  · show packagePadding ≤ st.currentY + st.rowHeight + buildingSpacing
    linarith

theorem packPlace_positions (st : PackState) (cls : ClassRec) :
    (packPlace st cls).positions =
      st.positions ++ [⟨st.currentX, st.currentY, cls⟩] := rfl

theorem packPlace_currentX (st : PackState) (cls : ClassRec) :
    (packPlace st cls).currentX = st.currentX + footprintW cls + buildingSpacing := rfl

theorem packPlace_currentY (st : PackState) (cls : ClassRec) :
    (packPlace st cls).currentY = st.currentY := rfl

theorem packPlace_rowHeight (st : PackState) (cls : ClassRec) :
    (packPlace st cls).rowHeight = max st.rowHeight (footprintD cls) := rfl

theorem packPlace_maxWidth (st : PackState) (cls : ClassRec) :
    (packPlace st cls).maxWidth = max st.maxWidth (st.currentX + footprintW cls) := rfl

theorem packPlace_totalDepth (st : PackState) (cls : ClassRec) :
    (packPlace st cls).totalDepth = max st.totalDepth (st.currentY + footprintD cls) := rfl

theorem packInv_place (st : PackState) (cls : ClassRec) (h : packInv st) :
    packInv (packPlace st cls) := by
  obtain ⟨h1, h2, h3, hx, hy, hr⟩ := h
  have hw20 : (20:ℝ) ≤ footprintW cls := footprintW_ge cls
  have hd20 : (20:ℝ) ≤ footprintD cls := footprintD_ge cls
  have hsp : (0:ℝ) ≤ buildingSpacing := by norm_num [buildingSpacing]
  have hpp : packagePadding = (20:ℝ) := rfl
  unfold packInv
  rw [packPlace_positions, packPlace_currentX, packPlace_currentY, packPlace_rowHeight,
    packPlace_maxWidth, packPlace_totalDepth]
  refine ⟨?_, ?_, ?_, ?_, hy, ?_⟩
  · intro p hp
    rcases List.mem_append.mp hp with hp' | hp'
    · rcases h1 p hp' with ⟨hpy, hpx, hpd⟩ | hpy
      · left
        refine ⟨hpy, by linarith, le_trans hpd (le_max_left _ _)⟩
      · right
        exact hpy
    · rcases List.mem_singleton.mp hp' with rfl
      left
      exact ⟨rfl, le_rfl, le_max_right _ _⟩
  · rw [List.pairwise_append]
    refine ⟨h2, List.pairwise_singleton _ _, ?_⟩
    intro a ha b hb
    rcases List.mem_singleton.mp hb with rfl
    intro hov
    simp only [buildingsOverlap] at hov
    obtain ⟨_, o2, _, o4⟩ := hov
    have hsp5 : (0:ℝ) < buildingSpacing := by norm_num [buildingSpacing]
    rcases h1 a ha with ⟨hay, hax, _⟩ | hay
    · exact absurd o2 (by simp only [not_lt]; linarith)
    · exact absurd o4 (by simp only [not_lt]; linarith)
  · intro p hp
    rcases List.mem_append.mp hp with hp' | hp'
    · obtain ⟨px, py, pmw, pd⟩ := h3 p hp'
      exact ⟨px, py, le_trans pmw (le_max_left _ _), le_trans pd (le_max_left _ _)⟩
    · rcases List.mem_singleton.mp hp' with rfl
      exact ⟨hx, hy, le_max_right _ _, le_max_right _ _⟩
  · linarith
  · exact le_trans hr (le_max_left _ _)

theorem packInv_foldl (m : ℕ) (l : List (ℕ × ClassRec)) (st : PackState)
    (h : packInv st) : packInv (l.foldl (packStep m) st) := by
  induction l generalizing st with
  | nil => exact h
  | cons a t ih =>
    refine ih _ ?_
    unfold packStep
    by_cases hc : 0 < a.1 ∧ a.1 % m = 0
    · rw [if_pos hc]
      exact packInv_place _ _ (packInv_wrap _ ⟨h.1, h.2.1, h.2.2.1, h.2.2.2.1, h.2.2.2.2.1,
        h.2.2.2.2.2⟩)
    · rw [if_neg hc]
      exact packInv_place _ _ h

theorem packInv_init :
    packInv ⟨packagePadding, packagePadding, 0, 0, packagePadding, []⟩ := by
  refine ⟨?_, List.Pairwise.nil, ?_, le_rfl, le_rfl, le_rfl⟩
  · intro p hp
    exact absurd hp (List.not_mem_nil p)
  · intro p hp
    exact absurd hp (List.not_mem_nil p)

/-- C1: for every input package, the per-package layout places buildings
with pairwise non-overlapping footprints, and the package footprint
(building bounding box plus padding) contains every placed building. -/
theorem calculatePackageLayout_no_overlap (pkg : PackageRec) :
    (calculatePackageLayout pkg).positions.Pairwise (fun a b => ¬ buildingsOverlap a b) ∧
    ∀ p ∈ (calculatePackageLayout pkg).positions,
      0 ≤ p.x ∧ p.x + footprintW p.cls ≤ (calculatePackageLayout pkg).width ∧
      0 ≤ p.y ∧ p.y + footprintD p.cls ≤ (calculatePackageLayout pkg).depth := by
  have h : packInv (packFinal pkg) :=
    packInv_foldl _ _ _ packInv_init
  obtain ⟨_, h2, h3, _, _, _⟩ := h
  have hpos : (calculatePackageLayout pkg).positions = (packFinal pkg).positions := rfl
  have hwidth : (calculatePackageLayout pkg).width =
    (packFinal pkg).maxWidth + packagePadding := rfl
  have hdepth : (calculatePackageLayout pkg).depth =
    (packFinal pkg).totalDepth + packagePadding := rfl
  have hpp : packagePadding = (20:ℝ) := rfl
  rw [hpos, hwidth, hdepth]
  refine ⟨h2, ?_⟩
  intro p hp
  obtain ⟨px, py, pmw, pd⟩ := h3 p hp
  rw [hpp] at px py
  exact ⟨by linarith, by rw [hpp]; linarith, by linarith, by rw [hpp]; linarith⟩

theorem calculatePackageLayout_no_overlap_witness :
    witPos ∈ (calculatePackageLayout witPackage).positions ∧
    (0 ≤ witPos.x ∧
     witPos.x + footprintW witPos.cls ≤ (calculatePackageLayout witPackage).width ∧
     0 ≤ witPos.y ∧
     witPos.y + footprintD witPos.cls ≤ (calculatePackageLayout witPackage).depth) := by
  have hmem : witPos ∈ (calculatePackageLayout witPackage).positions := by
    simp [calculatePackageLayout, packFinal, witPackage, witClass, witPos, packStep,
      packPlace, packagePadding, List.insertionSort, List.orderedInsert]
  exact ⟨hmem, (calculatePackageLayout_no_overlap witPackage).2 witPos hmem⟩

theorem ceil_sqrt_two : ⌈Real.sqrt 2⌉₊ = 2 := by
  rw [Nat.ceil_eq_iff (by norm_num)]
  constructor
  · have h : (1:ℝ) < Real.sqrt 2 := by
      rw [show (1:ℝ) = Real.sqrt 1 from (Real.sqrt_one).symm]
      exact Real.sqrt_lt_sqrt (by norm_num) (by norm_num)
    simpa using h
  · rw [Real.sqrt_le_left (by norm_num)]
    norm_num

theorem stateAB_heights : stateAB.buildings.map (fun b => b.height) = [120, 68] := by
  norm_num [stateAB, initialState, datasetAB, processData, layoutForStrategy,
    layoutPackagesQuadrant, layoutPackagesInRegion, regionStep, mkBuilding,
    calculatePackageLayout, packFinal, packStep, packPlace, packWrap,
    calculatePackageMass, List.insertionSort, List.orderedInsert, List.enum, List.enumFrom,
    ceil_sqrt_two, Real.sqrt_one, classX, classY, minBuildingHeight, locToHeightScale,
    estimatedPackageSize, packagePadding, buildingSpacing, packageSpacing, max_def]

theorem stateAB_manager : stateAB.gitColorManager = none := by
  norm_num [stateAB, processData, calculateGitNormalization, gitScan, gitScanClass,
    datasetAB, classX, classY, initialState]

theorem stateAB_fills :
    stateAB.buildings.map
      (fun b => buildingFillChoice b stateAB.gitColorManager true ⟨true, true, true⟩
        false false false 0) = [.base "#34495e", .base "#34495e"] := by
  norm_num [stateAB, initialState, datasetAB, processData, layoutForStrategy,
    layoutPackagesQuadrant, layoutPackagesInRegion, regionStep, mkBuilding,
    calculatePackageLayout, packFinal, packStep, packPlace, packWrap,
    calculatePackageMass, calculateGitNormalization, gitScan, gitScanClass,
    List.insertionSort, List.orderedInsert, List.enum, List.enumFrom,
    ceil_sqrt_two, Real.sqrt_one, classX, classY, minBuildingHeight, locToHeightScale,
    estimatedPackageSize, packagePadding, buildingSpacing, packageSpacing, max_def,
    buildingFillChoice, buildingBaseColor]

/-- C6 counterexample: in the scenario dataset (package "a.b", classes X
with 150 LOC and Y with 85 LOC, no git metadata) the buildings are NOT
rendered with the git-default hue 200 / saturation 70 HSL shading — with
no git metadata no color manager exists and `drawBuilding` falls back to
the hex base color, so the claimed rendered color is wrong. -/
theorem datasetAB_git_hue_not_rendered :
    stateAB.buildings.map
      (fun b => buildingFillChoice b stateAB.gitColorManager true ⟨true, true, true⟩
        false false false 0) ≠
      [.gitShades (getShades ⟨200, 70, 50⟩), .gitShades (getShades ⟨200, 70, 50⟩)] := by
  rw [stateAB_fills]
  simp

/-- C6 (amended): the scenario dataset produces exactly two buildings with
heights 120 and 68 (150×0.8 and 85×0.8); since no class carries git
metadata, no git color manager is created and both buildings are rendered
with the default base color "#34495e" (the hue-200/saturation-70 git
default is never applied). -/
theorem datasetAB_layout_and_colors :
    stateAB.buildings.length = 2 ∧
    stateAB.buildings.map (fun b => b.height) = [120, 68] ∧
    stateAB.gitColorManager = none ∧
    stateAB.buildings.map
      (fun b => buildingFillChoice b stateAB.gitColorManager true ⟨true, true, true⟩
        false false false 0) = [.base buildingBaseColor, .base buildingBaseColor] := by
  refine ⟨?_, stateAB_heights, stateAB_manager, ?_⟩
  · rw [← List.length_map stateAB.buildings (fun b => b.height), stateAB_heights]
    rfl
  · rw [stateAB_fills]
    rfl

end CodeCity
